import Mathlib

/-!
Verification of the TikTok extractor module (`yt_dlp/extractor/tiktok.py`).

The development shallowly embeds the extractor's core logic:

* the API version Negotiator (`TikTokBaseIE._call_api`),
* the format reconciler (`TikTokBaseIE._parse_aweme_video_app`, its inner
  `parse_url_key` / `extract_addr` helpers and the thumbnail assembly),
* the subtitle extractor (`TikTokBaseIE._get_subtitles`),
* the collection pagination driver (`TikTokBaseListIE._entries`),
* the short-link redirect resolver (`TikTokVMIE._real_extract`).

Host-application primitives that live outside the extractor file
(`yt_dlp/extractor/common.py` utilities such as `_download_json`,
`_remove_duplicate_formats`, `_sort_formats`, `srt_subtitles_timecode`,
`RetryManager`) are abstracted either as oracle parameters (network calls)
or as definitions modelled from the specification, each marked as such in
its doc comment.
-/

namespace TikTok

/-! ## API Access Negotiator (`TikTokBaseIE._call_api`) -/

/-- An app version candidate: the pair (display version string, numeric build
code string), as listed in `TikTokBaseIE._APP_VERSIONS`. -/
abbrev Cand := String × String

/-- The static candidate list `TikTokBaseIE._APP_VERSIONS`, most recent first. -/
def appVersions : List Cand :=
  [("26.1.3", "260103"), ("26.1.2", "260102"), ("26.1.1", "260101"), ("25.6.2", "250602")]

/-- Outcome of a single `_call_api_impl` invocation for one candidate.  The
host HTTP layer (`_download_json`) is abstracted as an oracle producing either
a successful JSON payload (abstracted to a `Nat`), an `ExtractorError` whose
cause is a `json.JSONDecodeError` at byte position `pos`, or any other
`ExtractorError`. -/
inductive ApiOutcome where
  | ok (res : Nat)
  | jsonDecodeErr (pos : Nat)
  | otherErr
deriving DecidableEq

deriving instance DecidableEq for Except

/-- The observable effect of one `_call_api` invocation: the returned value
(`Except.error` when the Python code re-raises the `ExtractorError`;
`Except.ok none` when a non-fatal call degrades to a warning and returns
`None`), the value of the process-wide `_WORKING_APP_VERSION` after the call,
and whether the call issued the `report_warning(..., only_once=True)` about a
lone version override argument. -/
structure CallApiResult where
  result : Except ApiOutcome (Option Nat)
  workingAppVersion : Option Cand
  loneOverrideWarned : Bool
deriving DecidableEq

/-- The unpinned negotiation loop of `_call_api` (the `for count, (...) in
enumerate(self._APP_VERSIONS, start=1)` loop): try candidates in list order;
an `ExtractorError` caused by a `JSONDecodeError` at position 0 moves on to
the next candidate (re-raised, or degraded to a warning and `None` when not
`fatal`, once the last candidate fails this way); success returns the result
together with the candidate to pin; any other error propagates. -/
def negotiateLoop (env : Cand → ApiOutcome) (fatal : Bool) :
    List Cand → Except ApiOutcome (Option Nat) × Option Cand
  | [] => (.ok none, none)
  | c :: rest =>
    match env c with
    | .ok r => (.ok (some r), some c)
    | .jsonDecodeErr p =>
      if p = 0 then
        if rest.isEmpty then
          if fatal then (.error (.jsonDecodeErr 0), none) else (.ok none, none)
        else
          negotiateLoop env fatal rest
      else (.error (.jsonDecodeErr p), none)
    | .otherErr => (.error .otherErr, none)

/-- `TikTokBaseIE._call_api`.  `working` is the current value of
`_WORKING_APP_VERSION`; `appVersionArg` / `manifestAppVersionArg` are the two
operator-supplied extractor arguments (empty string when not given, matching
`_configuration_arg`'s `['']` default).  When unpinned and both overrides are
present, the pair is pinned without negotiation; when exactly one is present,
a once-only warning is reported and negotiation proceeds as if none were
given.  A pinned candidate (pre-existing or just imported) is used
exclusively. -/
def callApi (env : Cand → ApiOutcome) (versions : List Cand) (fatal : Bool)
    (appVersionArg manifestAppVersionArg : String) (working : Option Cand) :
    CallApiResult :=
  let hasA : Bool := appVersionArg != ""
  let hasM : Bool := manifestAppVersionArg != ""
  let working1 : Option Cand :=
    if working.isNone && hasA && hasM then some (appVersionArg, manifestAppVersionArg)
    else working
  let warned : Bool := working.isNone && (hasA != hasM)
  match working1 with
  | some c =>
    match env c with
    | .ok r => ⟨.ok (some r), some c, warned⟩
    | e => ⟨.error e, some c, warned⟩
  | none =>
    let res := negotiateLoop env fatal versions
    ⟨res.1, res.2, warned⟩

theorem negotiateLoop_first_success (env : Cand → ApiOutcome) (fatal : Bool) :
    ∀ (versions : List Cand) (i : Nat) (hi : i < versions.length) (r : Nat),
    (∀ j (hj : j < versions.length), j < i → env (versions.get ⟨j, hj⟩) = .jsonDecodeErr 0) →
    env (versions.get ⟨i, hi⟩) = .ok r →
    negotiateLoop env fatal versions = (.ok (some r), some (versions.get ⟨i, hi⟩))
  | [], i, hi, r, _, _ => absurd hi (by simp)
  | c :: rest, 0, _, r, _, hok => by
      simp only [List.get] at hok
      simp [negotiateLoop, hok]
  | c :: rest, i + 1, hi, r, hfail, hok => by
      have hc : env c = .jsonDecodeErr 0 := hfail 0 (by simp) (Nat.succ_pos i)
      have hrest : rest.length > 0 := by
        have := hi; simp only [List.length_cons] at this; omega
      have hne : rest.isEmpty = false := by
        cases rest with
        | nil => simp at hrest
        | cons _ _ => rfl
      have ih := negotiateLoop_first_success env fatal rest i
        (by simpa using Nat.lt_of_succ_lt_succ (by simpa using hi)) r
        (fun j hj hji => hfail (j + 1) (by simpa using Nat.succ_lt_succ hj)
          (Nat.succ_lt_succ hji))
        (by simpa using hok)
      simp [negotiateLoop, hc, hne, ih]

/-- C1: with no pinned candidate (and no overrides), `_call_api` tries the
candidates in list order; a failure that is a JSON decode error at byte
position 0 moves on to the next candidate; the first candidate whose call
succeeds is pinned in `_WORKING_APP_VERSION` and its result is returned; any
subsequent call (under an arbitrary new oracle `env2`) uses exactly the
pinned candidate — its outcome depends only on `env2` at that candidate, so
no earlier candidate is ever retried. -/
theorem callApi_unpinned_first_success_pins
    (env env2 : Cand → ApiOutcome) (versions : List Cand) (fatal fatal2 : Bool)
    (i : Nat) (hi : i < versions.length) (r : Nat)
    (hfail : ∀ j (hj : j < versions.length), j < i →
      env (versions.get ⟨j, hj⟩) = .jsonDecodeErr 0)
    (hok : env (versions.get ⟨i, hi⟩) = .ok r) :
    callApi env versions fatal "" "" none =
      ⟨.ok (some r), some (versions.get ⟨i, hi⟩), false⟩
    ∧ callApi env2 versions fatal2 "" "" (some (versions.get ⟨i, hi⟩)) =
        (match env2 (versions.get ⟨i, hi⟩) with
         | .ok r2 => ⟨.ok (some r2), some (versions.get ⟨i, hi⟩), false⟩
         | e => ⟨.error e, some (versions.get ⟨i, hi⟩), false⟩) := by
  constructor
  · have h := negotiateLoop_first_success env fatal versions i hi r hfail hok
    simp [callApi, h]
  · rfl

/-- C1 witness: with candidates `[("26.1.3","260103"), ("26.1.2","260102")]`,
the first failing with a JSON decode error at position 0 and the second
succeeding with result 7, negotiation pins the second candidate; a later call
whose oracle returns 9 on every candidate returns 9 via the pinned one. -/
theorem callApi_unpinned_first_success_pins_witness :
    callApi
      (fun c => if c = ("26.1.3", "260103") then .jsonDecodeErr 0 else .ok 7)
      [("26.1.3", "260103"), ("26.1.2", "260102")] true "" "" none =
      ⟨.ok (some 7), some ("26.1.2", "260102"), false⟩
    ∧ callApi (fun _ => .ok 9)
        [("26.1.3", "260103"), ("26.1.2", "260102")] true "" ""
        (some ("26.1.2", "260102")) =
        ⟨.ok (some 9), some ("26.1.2", "260102"), false⟩ :=
  callApi_unpinned_first_success_pins
    (fun c => if c = ("26.1.3", "260103") then .jsonDecodeErr 0 else .ok 7)
    (fun _ => .ok 9)
    [("26.1.3", "260103"), ("26.1.2", "260102")] true true 1 (by decide) 7
    (by decide) (by decide)

/-- C2: when a candidate is pinned (from a prior success, or externally via
both override arguments), `_call_api` uses it exclusively; any failure — of
any kind, including the JSON-decode-error-at-position-0 signature that would
trigger fallback during negotiation — propagates immediately, with no other
candidate tried and the pinned state left in place. -/
theorem callApi_pinned_failure_propagates
    (env : Cand → ApiOutcome) (versions : List Cand) (fatal : Bool)
    (a m : String) (c : Cand) :
    (∀ r, env c = .ok r →
      callApi env versions fatal a m (some c) = ⟨.ok (some r), some c, false⟩)
    ∧ (∀ p, env c = .jsonDecodeErr p →
      callApi env versions fatal a m (some c) =
        ⟨.error (.jsonDecodeErr p), some c, false⟩)
    ∧ (env c = .otherErr →
      callApi env versions fatal a m (some c) = ⟨.error .otherErr, some c, false⟩)
    ∧ (a ≠ "" → m ≠ "" → ∀ p, env (a, m) = .jsonDecodeErr p →
      callApi env versions fatal a m none =
        ⟨.error (.jsonDecodeErr p), some (a, m), false⟩) := by
  refine ⟨fun r h => ?_, fun p h => ?_, fun h => ?_, fun ha hm p h => ?_⟩
  · simp [callApi, h]
  · simp [callApi, h]
  · simp [callApi, h]
  · have ha2 : (a != "") = true := bne_iff_ne.mpr ha
    have hm2 : (m != "") = true := bne_iff_ne.mpr hm
    simp [callApi, h, ha2, hm2]

/-- C2 witness: a pinned candidate failing with a JSON decode error at
position 0 (the empty-body signature) propagates the error directly, leaving
the pin in place. -/
theorem callApi_pinned_failure_propagates_witness :
    callApi (fun _ => .jsonDecodeErr 0)
      [("26.1.3", "260103"), ("26.1.2", "260102")] true "" ""
      (some ("26.1.3", "260103")) =
      ⟨.error (.jsonDecodeErr 0), some ("26.1.3", "260103"), false⟩ :=
  (callApi_pinned_failure_propagates (fun _ => .jsonDecodeErr 0)
    [("26.1.3", "260103"), ("26.1.2", "260102")] true "" ""
    ("26.1.3", "260103")).2.1 0 rfl

/-- C10: when exactly one of the two override arguments is given and nothing
is pinned yet, `_call_api` reports the once-only warning and behaves exactly
as if no override had been given (same result, same resulting pin); only when
both overrides are present is the pair pinned without negotiation. -/
theorem callApi_lone_override_ignored
    (env : Cand → ApiOutcome) (versions : List Cand) (fatal : Bool)
    (a m : String) :
    (a ≠ "" → m = "" →
      callApi env versions fatal a m none =
        { callApi env versions fatal "" "" none with loneOverrideWarned := true })
    ∧ (a = "" → m ≠ "" →
      callApi env versions fatal a m none =
        { callApi env versions fatal "" "" none with loneOverrideWarned := true })
    ∧ (a ≠ "" → m ≠ "" →
      callApi env versions fatal a m none =
        (match env (a, m) with
         | .ok r => ⟨.ok (some r), some (a, m), false⟩
         | e => ⟨.error e, some (a, m), false⟩)) := by
  refine ⟨fun ha hm => ?_, fun ha hm => ?_, fun ha hm => ?_⟩
  · have ha2 : (a != "") = true := bne_iff_ne.mpr ha
    subst hm; simp [callApi, ha2]
  · have hm2 : (m != "") = true := bne_iff_ne.mpr hm
    subst ha; simp [callApi, hm2]
  · have ha2 : (a != "") = true := bne_iff_ne.mpr ha
    have hm2 : (m != "") = true := bne_iff_ne.mpr hm
    cases h : env (a, m) <;> simp [callApi, ha2, hm2, h]

/-- C10 witness: with a lone `app_version` override, negotiation runs the
full candidate list (pinning the second candidate, as without the override)
and the warning is reported; with both overrides, the pair is pinned without
negotiation. -/
theorem callApi_lone_override_ignored_witness :
    callApi
      (fun c => if c = ("26.1.3", "260103") then .jsonDecodeErr 0 else .ok 7)
      [("26.1.3", "260103"), ("26.1.2", "260102")] true "20.9.3" "" none =
      { callApi
          (fun c => if c = ("26.1.3", "260103") then .jsonDecodeErr 0 else .ok 7)
          [("26.1.3", "260103"), ("26.1.2", "260102")] true "" "" none with
        loneOverrideWarned := true }
    ∧ callApi
        (fun c => if c = ("26.1.3", "260103") then .jsonDecodeErr 0 else .ok 7)
        [("26.1.3", "260103"), ("26.1.2", "260102")] true "20.9.3" "2020903" none =
        ⟨.ok (some 7), some ("20.9.3", "2020903"), false⟩ :=
  ⟨(callApi_lone_override_ignored
      (fun c => if c = ("26.1.3", "260103") then .jsonDecodeErr 0 else .ok 7)
      [("26.1.3", "260103"), ("26.1.2", "260102")] true "20.9.3" "").1
      (by decide) rfl,
   by
    have h := (callApi_lone_override_ignored
      (fun c => if c = ("26.1.3", "260103") then .jsonDecodeErr 0 else .ok 7)
      [("26.1.3", "260103"), ("26.1.2", "260102")] true "20.9.3" "2020903").2.2
      (by decide) (by decide)
    simpa using h⟩

/-! ## Format Reconciler: `parse_url_key` (inner helper of
`TikTokBaseIE._parse_aweme_video_app`) -/

/-- The fixed quality tier ordering `TikTokBaseIE.QUALITIES`. -/
def QUALITIES : List String := ["360p", "540p", "720p", "1080p"]

/-- Modelled from the spec: the host helper `qualities` (from
`yt_dlp/utils.py`, not under `src/`) maps a tier name to its index in the
fixed tier ordering, so that tiers compare ascending through
`('360p','540p','720p','1080p')`; an unknown tier gets the lowest rank. -/
def qualityRank (res : String) : Int :=
  match QUALITIES.indexOf? res with
  | some i => (i : Int)
  | none => -1

/-- ASCII decimal digit test (the `\d` class of the `parse_url_key` regex;
the URL keys are ASCII). -/
def isDig (c : Char) : Bool := '0' ≤ c && c ≤ '9'

/-- Value of a digit string (the regex guarantees at least one digit). -/
def digitsToNat (s : String) : Nat :=
  s.data.foldl (fun acc c => acc * 10 + (c.toNat - 48)) 0

/-- Attempt to match the `parse_url_key` regex
`v[^_]+_(?P<id>(?P<codec>[^_]+)_(?P<res>\d+p)_(?P<bitrate>\d+))`
at the head of the character list.  Each `[^_]+`/`\d+` is followed by a
character excluded from its class, so the greedy run never backtracks and a
maximal-run scan is exact.  Returns `(codec, res, bitrate)` group values. -/
def matchUrlKeyAt : List Char → Option (String × String × String)
  | 'v' :: rest =>
    match rest.span (fun c => c != '_') with
    | (r1, '_' :: rest2) =>
      if r1.isEmpty then none else
      match rest2.span (fun c => c != '_') with
      | (codec, '_' :: rest3) =>
        if codec.isEmpty then none else
        match rest3.span isDig with
        | (ds, 'p' :: '_' :: rest4) =>
          if ds.isEmpty then none else
          let bs := rest4.takeWhile isDig
          if bs.isEmpty then none
          else some (String.mk codec, String.mk (ds ++ ['p']), String.mk bs)
        | _ => none
      | _ => none
    | _ => none
  | _ => none

/-- `re.search` over the URL key: try the pattern at each successive start
position, leftmost match wins. -/
def searchUrlKey : List Char → Option (String × String × String)
  | [] => none
  | c :: cs =>
    match matchUrlKeyAt (c :: cs) with
    | some r => some r
    | none => searchUrlKey cs

/-- The metadata `parse_url_key` extracts from a matching URL key: the `id`
group (`codec_res_bitrate`), the codec group, the resolution tag group
(digits plus the trailing `p`) and the bitrate group. -/
structure ParsedKey where
  formatId : String
  codec : String
  res : String
  bitrate : String
deriving DecidableEq

/-- `parse_url_key` (inner helper of `_parse_aweme_video_app`): regex-search
the URL key; on no match return nothing (the Python code returns `({}, None)`). -/
def parseUrlKey (urlKey : String) : Option ParsedKey :=
  (searchUrlKey urlKey.data).map fun g =>
    ⟨g.1 ++ "_" ++ g.2.1 ++ "_" ++ g.2.2, g.1, g.2.1, g.2.2⟩

/-- The `vcodec` value `parse_url_key` derives: `'h265' if codec == 'bytevc1'
else codec`. -/
def parsedVcodec (pk : ParsedKey) : String :=
  if pk.codec = "bytevc1" then "h265" else pk.codec

/-- The `tbr` value `parse_url_key` derives:
`int_or_none(bitrate, scale=1000) or None` (integer division by 1000, with 0
collapsing to `None`). -/
def parsedTbr (pk : ParsedKey) : Option ℚ :=
  let n := digitsToNat pk.bitrate / 1000
  if n = 0 then none else some (n : ℚ)

/-! ## Format Reconciler: `extract_addr` and the raw format assembly -/

/-- A play/download address dictionary from the native payload: the fields
`extract_addr` reads (`url_key`, `data_size`, `url_list`) plus the
`duration` key read by the top-level duration fallback
(`('download_addr', 'duration')`). -/
structure Addr where
  urlKey : String := ""
  dataSize : Option Int := none
  urlList : List String := []
  duration : Option Int := none
deriving DecidableEq

/-- One entry of the `video.bit_rate` ladder: the fields the ladder loop
reads (`play_addr`, `gear_name`, `bit_rate`, `is_bytevc1`, `is_h265`,
`FPS`). -/
structure BitrateEntry where
  playAddr : Option Addr := none
  gearName : Option String := none
  bitRate : Option Int := none
  isBytevc1 : Option Bool := none
  isH265 : Option Bool := none
  fps : Option Int := none
deriving DecidableEq

/-- The `video` sub-dictionary of a native aweme detail: every field
`_parse_aweme_video_app` reads from it.  Each cover field holds the
`url_list` of a truthy cover dictionary (`none` for an absent or falsy
value). -/
structure VideoInfo where
  playAddr : Option Addr := none
  downloadAddr : Option Addr := none
  playAddrH264 : Option Addr := none
  playAddrBytevc1 : Option Addr := none
  bitRate : List BitrateEntry := []
  isBytevc1 : Option Bool := none
  isH265 : Option Bool := none
  hasWatermark : Option Bool := none
  width : Option Int := none
  height : Option Int := none
  duration : Option Int := none
  cover : Option (List String) := none
  aiDynamicCover : Option (List String) := none
  animatedCover : Option (List String) := none
  aiDynamicCoverBak : Option (List String) := none
  originCover : Option (List String) := none
  dynamicCover : Option (List String) := none
deriving DecidableEq

/-- One normalized format descriptor (the dictionary `extract_addr` builds
per URL).  A Python dictionary key that is absent or maps to `None` is a
`none` field here; fields the dictionary always carries (`url`, `ext`,
`acodec`, `source_preference`) are plain. -/
structure Format where
  url : String
  formatId : Option String := none
  formatNote : Option String := none
  vcodec : Option String := none
  acodec : String := "aac"
  ext : String := "mp4"
  width : Option Int := none
  height : Option Int := none
  tbr : Option ℚ := none
  quality : Option Int := none
  filesize : Option Int := none
  sourcePreference : Int := -1
  preference : Option Int := none
  fps : Option Int := none
deriving DecidableEq

/-- The `add_meta` dictionary passed by each `extract_addr` call site.  An
outer `none` means the key is absent from the dictionary; an inner `none`
(for the doubly-optional fields) means the key is present but maps to
`None` — the distinction matters because a later `**parsed_meta` splat
overrides present keys, `None`-valued or not. -/
structure AddMeta where
  formatId : Option (Option String) := none
  formatNote : Option String := none
  vcodec : Option String := none
  width : Option (Option Int) := none
  height : Option (Option Int) := none
  tbr : Option (Option ℚ) := none
  preference : Option Int := none
  fps : Option (Option Int) := none
deriving DecidableEq

/-- The running `known_resolutions` table: resolution tag to the
`{'height': h, 'width': w}` dictionary stored for it (both keys always
present once the tag is first seen, possibly with `None` values). -/
abbrev KnownRes := List (String × Option Int × Option Int)

/-- Lookup in the `known_resolutions` table. -/
def krFind (k : KnownRes) (res : String) : Option (Option Int × Option Int) :=
  (k.find? fun e => e.1 == res).map (·.2)

/-- `known_resolutions.setdefault(res, {}).setdefault('height', h)` followed
by `known_resolutions[res].setdefault('width', w)`: a fresh tag stores the
current call's dimensions (possibly `None`); an existing tag is left
untouched. -/
def krInsert (k : KnownRes) (res : String) (h w : Option Int) : KnownRes :=
  if (krFind k res).isSome then k else k ++ [(res, h, w)]

/-- Check `pat` occurs at the head of `s`. -/
def charsPrefixOf : List Char → List Char → Bool
  | [], _ => true
  | _ :: _, [] => false
  | p :: ps, c :: cs => p == c && charsPrefixOf ps cs

/-- Check `pat` occurs anywhere in `s` (Python `pat in s`). -/
def charsContain (pat : List Char) : List Char → Bool
  | [] => charsPrefixOf pat []
  | c :: cs => charsPrefixOf pat (c :: cs) || charsContain pat cs

/-- Check `'aweme/v1' in url` (the API-host marker used for
`source_preference` and the `(API)` format note). -/
def isApiUrl (url : String) : Bool := charsContain "aweme/v1".data url.data

/-- `join_nonempty(..., delim=' ')` over the two format-note parts: falsy
parts are dropped, the rest joined by a space, an empty join is `None`. -/
def formatNoteOf (am : AddMeta) (url : String) : Option String :=
  let parts := [am.formatNote, if isApiUrl url then some "(API)" else none]
  let s := " ".intercalate ((parts.filterMap id).filter (fun p => p != ""))
  if s = "" then none else some s

/-- The descriptor `extract_addr` builds for one URL when the URL key
matched: `**add_meta` is overridden by `**parsed_meta`, whose `height` and
`width` keys were just updated from the `known_resolutions` entry `(kh, kw)`
of the tag (so the call-site dimensions are visible only through that
table). -/
def mkMatched (addr : Addr) (am : AddMeta) (pk : ParsedKey)
    (kh kw : Option Int) (url : String) : Format :=
  { url := url
    filesize := addr.dataSize
    sourcePreference := if isApiUrl url then -2 else -1
    formatId := some pk.formatId
    formatNote := formatNoteOf am url
    vcodec := some (parsedVcodec pk)
    tbr := parsedTbr pk
    quality := some (qualityRank pk.res)
    width := kw
    height := kh
    preference := am.preference
    fps := am.fps.join }

/-- The descriptor `extract_addr` builds for one URL when the URL key did
not match (`parsed_meta` is empty, so `add_meta` alone fills the optional
fields). -/
def mkUnmatched (addr : Addr) (am : AddMeta) (url : String) : Format :=
  { url := url
    filesize := addr.dataSize
    sourcePreference := if isApiUrl url then -2 else -1
    formatId := am.formatId.join
    formatNote := formatNoteOf am url
    vcodec := am.vcodec
    tbr := am.tbr.join
    quality := none
    width := am.width.join
    height := am.height.join
    preference := am.preference
    fps := am.fps.join }

/-- `extract_addr`: parse the URL key; when a resolution tag is recognized,
record the call's dimensions for that tag if it is new (first seen wins) and
let the tag's stored dimensions override the call-site metadata; build one
descriptor per URL of `url_list`.  Returns the descriptors and the updated
`known_resolutions` table. -/
def extractAddr (known : KnownRes) (addr : Addr) (am : AddMeta) :
    List Format × KnownRes :=
  match parseUrlKey addr.urlKey with
  | none => (addr.urlList.map (mkUnmatched addr am), known)
  | some pk =>
    let known2 := krInsert known pk.res am.height.join am.width.join
    let kv := (krFind known2 pk.res).getD (none, none)
    (addr.urlList.map (mkMatched addr am pk kv.1 kv.2), known2)

/-- The `add_meta` of the `play_addr` call site. -/
def playAddrMeta (vi : VideoInfo) : AddMeta :=
  { formatId := some (some "play_addr")
    formatNote := some "Direct video"
    vcodec := some (if (vi.isBytevc1 <|> vi.isH265).getD false then "h265" else "h264")
    width := some vi.width
    height := some vi.height }

/-- The `add_meta` of the `download_addr` call site. -/
def downloadAddrMeta (vi : VideoInfo) : AddMeta :=
  { formatId := some (some "download_addr")
    formatNote := some ("Download video" ++
      (if vi.hasWatermark.getD false then ", watermarked" else ""))
    vcodec := some "h264"
    width := some vi.width
    height := some vi.height
    preference := some (if vi.hasWatermark.getD false then -2 else -1) }

/-- The `add_meta` of the `play_addr_h264` call site. -/
def playAddrH264Meta : AddMeta :=
  { formatId := some (some "play_addr_h264")
    formatNote := some "Direct video"
    vcodec := some "h264" }

/-- The `add_meta` of the `play_addr_bytevc1` call site. -/
def playAddrBytevc1Meta : AddMeta :=
  { formatId := some (some "play_addr_bytevc1")
    formatNote := some "Direct video"
    vcodec := some "h265" }

/-- The `add_meta` of a `bit_rate` ladder entry:
`try_get(bitrate, lambda x: x['bit_rate'] / 1000)` is true division. -/
def ladderMeta (e : BitrateEntry) : AddMeta :=
  { formatId := some e.gearName
    formatNote := some "Playback video"
    tbr := some (e.bitRate.map fun n => (n : ℚ) / 1000)
    vcodec := some (if (e.isBytevc1 <|> e.isH265).getD false then "h265" else "h264")
    fps := some e.fps }

/-- One optional slot of the format assembly: extend the accumulated
formats/known-resolutions state by an `extract_addr` call when the address
is truthy. -/
def slotStep (st : List Format × KnownRes) (addr : Option Addr) (am : AddMeta) :
    List Format × KnownRes :=
  match addr with
  | none => st
  | some a =>
    let r := extractAddr st.2 a am
    (st.1 ++ r.1, r.2)

/-- The raw (pre-dedup, pre-sort) format list `_parse_aweme_video_app`
assembles: direct play address, download address, per-codec variants, then
every ladder entry, all sharing one running `known_resolutions` table. -/
def buildRawFormats (vi : VideoInfo) : List Format :=
  let s0 : List Format × KnownRes := ([], [])
  let s1 := slotStep s0 vi.playAddr (playAddrMeta vi)
  let s2 := slotStep s1 vi.downloadAddr (downloadAddrMeta vi)
  let s3 := slotStep s2 vi.playAddrH264 playAddrH264Meta
  let s4 := slotStep s3 vi.playAddrBytevc1 playAddrBytevc1Meta
  let s5 := vi.bitRate.foldl (fun st e => slotStep st e.playAddr (ladderMeta e)) s4
  s5.1

/-! ## Format Reconciler: deduplication and ranking -/

/-- Modelled from the spec: the deduplication key of
`_remove_duplicate_formats` (from `yt_dlp/extractor/common.py`, not under
`src/`) — "Deduplicate identical-looking descriptors (by
tier/codec/size/bitrate)". -/
def dedupKey (f : Format) : Option Int × Option String × Option Int × Option ℚ :=
  (f.quality, f.vcodec, f.filesize, f.tbr)

/-- Modelled from the spec: first-occurrence-wins deduplication over
`dedupKey` (the source comment "Add direct video links first to prioritize
them when removing duplicate formats" documents that the first occurrence is
the one kept). -/
def dedupAux (seen : List (Option Int × Option String × Option Int × Option ℚ)) :
    List Format → List Format
  | [] => []
  | f :: fs =>
    if dedupKey f ∈ seen then dedupAux seen fs
    else f :: dedupAux (dedupKey f :: seen) fs

/-- Modelled from the spec: `_remove_duplicate_formats`. -/
def removeDuplicateFormats (fs : List Format) : List Format := dedupAux [] fs

/-- Modelled from the spec: the codec-preference rank used by the
`_sort_formats` field `'codec'` (h265 preferred over h264, other codecs
below, absent codec last). -/
def codecRank : Option String → ℤ
  | some "h265" => 2
  | some "h264" => 1
  | some _ => 0
  | none => -1

/-- Missing numeric sort fields rank lowest. -/
def optIntKey : Option Int → WithBot ℤ
  | none => ⊥
  | some n => (n : WithBot ℤ)

/-- Missing bitrate ranks lowest. -/
def optRatKey : Option ℚ → WithBot ℚ
  | none => ⊥
  | some q => (q : WithBot ℚ)

/-- The composite sort key of `_sort_formats(formats, ('quality', 'codec',
'size', 'br'))`: lexicographic on quality tier, codec preference, byte size,
bitrate. -/
abbrev SortKey := Lex ((WithBot ℤ) × Lex (ℤ × Lex ((WithBot ℤ) × WithBot ℚ)))

/-- Sort key of one descriptor. -/
def sortKey (f : Format) : SortKey :=
  toLex (optIntKey f.quality,
    toLex (codecRank f.vcodec, toLex (optIntKey f.filesize, optRatKey f.tbr)))

/-- The Boolean comparison driving the stable sort. -/
def fmtLE (f g : Format) : Bool := decide (sortKey f ≤ sortKey g)

theorem fmtLE_trans (a b c : Format) (h1 : fmtLE a b = true) (h2 : fmtLE b c = true) :
    fmtLE a c = true := by
  simp only [fmtLE, decide_eq_true_eq] at h1 h2 ⊢
  exact le_trans h1 h2

theorem fmtLE_total (a b : Format) : (fmtLE a b || fmtLE b a) = true := by
  simp only [fmtLE, Bool.or_eq_true, decide_eq_true_eq]
  exact le_total (sortKey a) (sortKey b)

/-- Modelled from the spec: `_sort_formats` is a stable sort, ascending
through the composite key (quality tier, codec preference, size, bitrate). -/
def sortFormats (fs : List Format) : List Format := fs.mergeSort fmtLE

/-! ## Format Reconciler: thumbnails, music attribution, metadata envelope -/

/-- One thumbnail entry (`{'id': cover_id, 'url': cover_url}`). -/
structure Thumb where
  id : String
  url : String
deriving DecidableEq

/-- The fixed priority list of cover-image fields, in source order. -/
def coverFieldList (vi : VideoInfo) : List (String × Option (List String)) :=
  [("cover", vi.cover), ("ai_dynamic_cover", vi.aiDynamicCover),
   ("animated_cover", vi.animatedCover), ("ai_dynamic_cover_bak", vi.aiDynamicCoverBak),
   ("origin_cover", vi.originCover), ("dynamic_cover", vi.dynamicCover)]

/-- The thumbnail assembly loop of `_parse_aweme_video_app`: iterate the
fixed cover-field list in order and append every URL of every truthy cover
field, tagged with its field name. -/
def buildThumbnails (vi : VideoInfo) : List Thumb :=
  (coverFieldList vi).flatMap fun p =>
    match p.2 with
    | some urls => urls.map fun u => ⟨p.1, u⟩
    | none => []

/-- A cross-referenced matched song (`matched_song` / `matched_pgc_sound`):
the `title` and `author` fields read from it. -/
structure MatchedSong where
  title : Option String := none
  author : Option String := none
deriving DecidableEq

/-- The `music` sub-dictionary fields `_parse_aweme_video_app` reads. -/
structure MusicInfo where
  title : Option String := none
  author : Option String := none
  album : Option String := none
  isOriginalSound : Option Bool := none
  ownerHandle : Option String := none
  matchedSong : Option MatchedSong := none
  matchedPgcSound : Option MatchedSong := none
deriving DecidableEq

/-- `contained_music_track`: first non-`None` of `matched_song.title`,
`matched_pgc_sound.title`. -/
def containedMusicTrack (m : MusicInfo) : Option String :=
  (m.matchedSong.bind (·.title)) <|> (m.matchedPgcSound.bind (·.title))

/-- `contained_music_author`: first non-`None` of `matched_song.author`,
`matched_pgc_sound.author`, `author`. -/
def containedMusicAuthor (m : MusicInfo) : Option String :=
  (m.matchedSong.bind (·.author)) <|> (m.matchedPgcSound.bind (·.author)) <|> m.author

/-- `is_generic_og_trackname`: the track is flagged as original sound and its
title is exactly `'original sound - %s' % owner_handle` (Python renders an
absent handle as the string `None`). -/
def isGenericOgTrackname (m : MusicInfo) : Bool :=
  m.isOriginalSound.getD false &&
    (m.title == some ("original sound - " ++ m.ownerHandle.getD "None"))

/-- Python `a or b` on an optional string against a literal: falsy (`None`
or empty) falls through. -/
def pyOrStr (a : Option String) (b : String) : String :=
  match a with
  | some s => if s = "" then b else s
  | none => b

/-- Python `s or None`: the empty string collapses to `None`. -/
def emptyToNone : Option String → Option String
  | some s => if s = "" then none else some s
  | none => none

/-- `music_track`: the generic-original-sound branch prefers the contained
track, falling back to the literal label; otherwise the literal title. -/
def musicTrack (m : MusicInfo) : Option String :=
  if isGenericOgTrackname m then some (pyOrStr (containedMusicTrack m) "original sound")
  else m.title

/-- `music_author` (before the final `or None`). -/
def musicAuthorRaw (m : MusicInfo) : Option String :=
  if isGenericOgTrackname m then containedMusicAuthor m else m.author

/-- The `author` sub-dictionary fields read (`sec_uid`, `id`, `uid`,
`unique_id`, `nickname`). -/
structure AuthorInfo where
  secUid : Option String := none
  idField : Option String := none
  uid : Option String := none
  uniqueId : Option String := none
  nickname : Option String := none
deriving DecidableEq

/-- The `statistics` sub-dictionary fields read. -/
structure StatsInfo where
  playCount : Option Int := none
  diggCount : Option Int := none
  shareCount : Option Int := none
  commentCount : Option Int := none
deriving DecidableEq

/-! ## Subtitle extractor (`TikTokBaseIE._get_subtitles`) -/

/-- One utterance of a downloaded caption payload (times in milliseconds).
An utterance whose `text` key is absent or empty is modelled with
`text = ""`. -/
structure Utterance where
  startTime : Nat
  endTime : Nat
  text : String
deriving DecidableEq

/-- A downloaded caption JSON payload (`caption_json['utterances']`). -/
structure CaptionPayload where
  utterances : List Utterance
deriving DecidableEq

/-- One caption sticker from the `interaction_stickers` traversal: `url` is
the first valid URL of `caption['url']['url_list']` (`none` when there is
none, making the sticker skipped), `language` the optional language code. -/
structure Caption where
  url : Option String := none
  language : Option String := none
deriving DecidableEq

/-- One produced subtitle track (`{'ext': 'srt', 'data': ...}`). -/
structure SubEntry where
  ext : String
  data : String
deriving DecidableEq

/-- Zero-pad to two digits (`%02d`). -/
def pad2 (n : Nat) : String := if n < 10 then "0" ++ toString n else toString n

/-- Zero-pad to three digits (`%03d`). -/
def pad3 (n : Nat) : String :=
  if n < 10 then "00" ++ toString n else if n < 100 then "0" ++ toString n else toString n

/-- Modelled from the spec: the host helper `srt_subtitles_timecode` (from
`yt_dlp/utils.py`, not under `src/`): an `HH:MM:SS,mmm` timecode derived by
dividing the millisecond time by 1000 (the source passes `ms / 1000` seconds
and the helper decomposes `seconds * 1000`). -/
def srtTimecodeMs (ms : Nat) : String :=
  pad2 (ms / 3600000) ++ ":" ++ pad2 (ms / 60000 % 60) ++ ":" ++
    pad2 (ms / 1000 % 60) ++ "," ++ pad3 (ms % 1000)

/-- The cue a single utterance renders to, given its 0-based position `i` in
the original utterance list (`enumerate` runs before the text filter). -/
def srtCue (i : Nat) (u : Utterance) : String :=
  toString (i + 1) ++ "\n" ++ srtTimecodeMs u.startTime ++ " --> " ++
    srtTimecodeMs u.endTime ++ "\n" ++ u.text

/-- The `data` string `_get_subtitles` builds for one caption payload:
enumerate all utterances, keep those with non-empty text, render each as a
cue numbered by its original 1-based index, join with blank lines. -/
def srtData (utts : List Utterance) : String :=
  String.intercalate "\n\n"
    (((utts.enum).filter fun p => p.2.text != "").map fun p => srtCue p.1 p.2)

/-- `subtitles.setdefault(lang, []).append(entry)`: insertion-ordered
grouping by language code. -/
def addSub (subs : List (String × List SubEntry)) (lang : String) (e : SubEntry) :
    List (String × List SubEntry) :=
  if subs.any fun p => p.1 == lang then
    subs.map fun p => if p.1 == lang then (p.1, p.2 ++ [e]) else p
  else subs ++ [(lang, [e])]

/-- `TikTokBaseIE._get_subtitles`: for each caption sticker with a URL,
fetch its payload (soft-fail per caption: the `fetch` oracle abstracts the
non-fatal `_download_json`), convert to SRT and group under the caption's
language code, defaulting to `'en'`. -/
def getSubtitles (fetch : String → Option CaptionPayload) (captions : List Caption) :
    List (String × List SubEntry) :=
  captions.foldl
    (fun subs cap =>
      match cap.url with
      | none => subs
      | some u =>
        match fetch u with
        | none => subs
        | some payload => addSub subs (cap.language.getD "en") ⟨"srt", srtData payload.utterances⟩)
    []

/-! ## `TikTokBaseIE._parse_aweme_video_app`: the normalized record -/

/-- A native aweme detail record: every part of the payload
`_parse_aweme_video_app` traverses.  `labels` models the
`('hybrid_label', ..., 'text')` traversal, `captions` the
`interaction_stickers` caption traversal of `_get_subtitles`. -/
structure AwemeDetail where
  awemeId : String
  video : VideoInfo := {}
  statistics : StatsInfo := {}
  author : AuthorInfo := {}
  music : MusicInfo := {}
  labels : List String := []
  desc : Option String := none
  createTime : Option Int := none
  captions : List Caption := []
deriving DecidableEq

/-- The normalized media record `_parse_aweme_video_app` returns (the
host-schema dictionary, minus the constant extractor-identity fields). -/
structure MediaRecord where
  id : String
  webpageUrl : String
  title : Option String
  description : Option String
  viewCount : Option Int
  likeCount : Option Int
  repostCount : Option Int
  commentCount : Option Int
  uploader : Option String
  creator : Option String
  uploaderId : Option String
  uploaderUrl : String
  track : Option String
  album : Option String
  artist : Option String
  timestamp : Option Int
  formats : List Format
  subtitles : List (String × List SubEntry)
  thumbnails : List Thumb
  duration : Option Int
  isPrivate : Bool
  needsSubscription : Bool
  isUnlisted : Bool
deriving DecidableEq

/-- `TikTokBaseIE._parse_aweme_video_app`: assemble the raw formats,
deduplicate, stable-sort, build thumbnails, resolve music attribution and
availability flags, and produce the normalized record.  The per-format
cookie mirroring is an external side effect on the host cookie jar and does
not alter the record. -/
def parseAwemeVideoApp (fetch : String → Option CaptionPayload) (d : AwemeDetail) :
    MediaRecord :=
  let vi := d.video
  { id := d.awemeId
    webpageUrl := "https://www.tiktok.com/@" ++ pyOrStr d.author.uid "_" ++
      "/video/" ++ d.awemeId
    title := d.desc
    description := d.desc
    viewCount := d.statistics.playCount
    likeCount := d.statistics.diggCount
    repostCount := d.statistics.shareCount
    commentCount := d.statistics.commentCount
    uploader := d.author.uniqueId
    creator := d.author.nickname
    uploaderId := d.author.uid
    uploaderUrl := "https://www.tiktok.com/@" ++
      ((d.author.secUid <|> d.author.idField <|> d.author.uid <|> d.author.uniqueId).getD "None")
    track := musicTrack d.music
    album := emptyToNone d.music.album
    artist := emptyToNone (musicAuthorRaw d.music)
    timestamp := d.createTime
    formats := sortFormats (removeDuplicateFormats (buildRawFormats vi))
    subtitles := getSubtitles fetch d.captions
    thumbnails := buildThumbnails vi
    duration := (vi.duration <|> vi.downloadAddr.bind (·.duration)).map fun n => Int.fdiv n 1000
    isPrivate := d.labels.contains "Private"
    needsSubscription := d.labels.contains "Friends only"
    isUnlisted := d.labels.contains "Followers only" }

/-! ## Claims about deduplication and ranking -/

theorem dedupAux_not_seen : ∀ (fs : List Format) (seen) (f : Format),
    f ∈ dedupAux seen fs → dedupKey f ∉ seen
  | [], _, _, h => absurd h (by simp [dedupAux])
  | f0 :: fs, seen, f, h => by
    by_cases hk : dedupKey f0 ∈ seen
    · rw [dedupAux, if_pos hk] at h
      exact dedupAux_not_seen fs seen f h
    · rw [dedupAux, if_neg hk] at h
      rcases List.mem_cons.mp h with rfl | h2
      · exact hk
      · have h3 := dedupAux_not_seen fs (dedupKey f0 :: seen) f h2
        exact fun hin => h3 (List.mem_cons_of_mem _ hin)

theorem dedupAux_pairwise : ∀ (fs : List Format) (seen),
    (dedupAux seen fs).Pairwise fun f g => dedupKey f ≠ dedupKey g
  | [], seen => by simp [dedupAux]
  | f0 :: fs, seen => by
    by_cases hk : dedupKey f0 ∈ seen
    · rw [dedupAux, if_pos hk]
      exact dedupAux_pairwise fs seen
    · rw [dedupAux, if_neg hk]
      refine List.Pairwise.cons (fun g hg => ?_) (dedupAux_pairwise fs _)
      have h3 := dedupAux_not_seen fs (dedupKey f0 :: seen) g hg
      exact fun he => h3 (List.mem_cons.mpr (Or.inl he.symm))

theorem dedupAux_covers : ∀ (fs : List Format) (seen) (f : Format),
    f ∈ fs → dedupKey f ∉ seen →
    ∃ g ∈ dedupAux seen fs, dedupKey g = dedupKey f
  | [], _, _, h, _ => absurd h (by simp)
  | f0 :: fs, seen, f, hmem, hns => by
    by_cases hk : dedupKey f0 ∈ seen
    · rw [dedupAux, if_pos hk]
      rcases List.mem_cons.mp hmem with rfl | h2
      · exact absurd hk hns
      · exact dedupAux_covers fs seen f h2 hns
    · rw [dedupAux, if_neg hk]
      by_cases hf0 : dedupKey f = dedupKey f0
      · exact ⟨f0, List.mem_cons_self _ _, hf0.symm⟩
      · rcases List.mem_cons.mp hmem with rfl | h2
        · exact absurd rfl hf0
        · rcases dedupAux_covers fs (dedupKey f0 :: seen) f h2
            (fun hc => (List.mem_cons.mp hc).elim hf0 hns) with ⟨g, hg, he⟩
          exact ⟨g, List.mem_cons_of_mem _ hg, he⟩

theorem sortFormats_stable_filter (fs : List Format) (k : SortKey) :
    (sortFormats fs).filter (fun f => decide (sortKey f = k)) =
      fs.filter (fun f => decide (sortKey f = k)) := by
  have hsub : (fs.filter fun f => decide (sortKey f = k)).Sublist (sortFormats fs) := by
    refine List.sublist_mergeSort fmtLE_trans fmtLE_total ?_ (List.filter_sublist fs)
    refine List.pairwise_of_forall_mem_list fun a ha b hb => ?_
    have hak : sortKey a = k := by simpa using List.of_mem_filter ha
    have hbk : sortKey b = k := by simpa using List.of_mem_filter hb
    simp [fmtLE, hak, hbk]
  have hself : (fs.filter fun f => decide (sortKey f = k)).filter
      (fun f => decide (sortKey f = k)) = fs.filter fun f => decide (sortKey f = k) := by
    refine List.filter_eq_self.mpr fun a ha => ?_
    simpa using List.of_mem_filter ha
  have hsub2 : (fs.filter fun f => decide (sortKey f = k)).Sublist
      ((sortFormats fs).filter fun f => decide (sortKey f = k)) := by
    have h2 := List.Sublist.filter (fun f => decide (sortKey f = k)) hsub
    rwa [hself] at h2
  have hperm : ((sortFormats fs).filter fun f => decide (sortKey f = k)).Perm
      (fs.filter fun f => decide (sortKey f = k)) :=
    (List.mergeSort_perm fs fmtLE).filter _
  exact ((hsub2.eq_of_length hperm.length_eq.symm).symm)

/-- C3: in native-shape reconciliation the format list is first deduplicated
by the key (quality tier, codec, filesize, bitrate) — the deduplicated list
has pairwise-distinct keys and keeps a representative of every incoming
descriptor's key — and only afterwards stable-sorted ascending by quality
tier (through the fixed tier ordering `('360p','540p','720p','1080p')`),
then codec preference, then byte size, then bitrate: the sort is a
permutation, sorted under the composite comparison, and preserves the
relative order of descriptors with equal keys. -/
theorem formats_deduped_then_ranked :
    (∀ (fetch : String → Option CaptionPayload) (d : AwemeDetail),
      (parseAwemeVideoApp fetch d).formats =
        sortFormats (removeDuplicateFormats (buildRawFormats d.video)))
    ∧ (∀ fs : List Format,
        (removeDuplicateFormats fs).Pairwise fun f g => dedupKey f ≠ dedupKey g)
    ∧ (∀ (fs : List Format) (f : Format), f ∈ fs →
        ∃ g ∈ removeDuplicateFormats fs, dedupKey g = dedupKey f)
    ∧ (∀ fs : List Format, (sortFormats fs).Pairwise fun f g => fmtLE f g = true)
    ∧ (∀ fs : List Format, (sortFormats fs).Perm fs)
    ∧ (∀ (fs : List Format) (k : SortKey),
        (sortFormats fs).filter (fun f => decide (sortKey f = k)) =
          fs.filter fun f => decide (sortKey f = k))
    ∧ qualityRank "360p" < qualityRank "540p" ∧ qualityRank "540p" < qualityRank "720p"
    ∧ qualityRank "720p" < qualityRank "1080p" := by
  refine ⟨fun fetch d => rfl, fun fs => dedupAux_pairwise fs [],
    fun fs f h => dedupAux_covers fs [] f h (by simp),
    fun fs => List.sorted_mergeSort fmtLE_trans fmtLE_total fs,
    fun fs => List.mergeSort_perm fs fmtLE,
    sortFormats_stable_filter, by decide, by decide, by decide⟩

/-- C3 witness: the dedup-coverage part applied to a concrete two-element
format list whose members share the deduplication key. -/
theorem formats_deduped_then_ranked_witness :
    ∃ g ∈ removeDuplicateFormats
      [{ url := "a", vcodec := some "h264" }, { url := "b", vcodec := some "h264" }],
      dedupKey g = dedupKey { url := "b", vcodec := some "h264" } :=
  formats_deduped_then_ranked.2.2.1
    [{ url := "a", vcodec := some "h264" }, { url := "b", vcodec := some "h264" }]
    { url := "b", vcodec := some "h264" } (by decide)

/-! ## Claim about resolution inheritance (`extract_addr`) -/

theorem krFind_insert_self (k : KnownRes) (res : String) (h w : Option Int)
    (hnone : krFind k res = none) :
    krFind (krInsert k res h w) res = some (h, w) := by
  have hf : (k.find? fun e => e.1 == res) = none := by
    unfold krFind at hnone
    exact Option.map_eq_none.mp hnone
  unfold krInsert
  rw [hnone]
  simp [krFind, List.find?_append, hf]

theorem krFind_insert_preserve (k : KnownRes) (r2 : String) (h2 w2 : Option Int)
    (res : String) (v : Option Int × Option Int) (hv : krFind k res = some v) :
    krFind (krInsert k r2 h2 w2) res = some v := by
  unfold krInsert
  by_cases hp : (krFind k r2).isSome
  · rw [if_pos hp]; exact hv
  · rw [if_neg hp]
    rcases Option.map_eq_some.mp hv with ⟨e, he, hev⟩
    simp [krFind, List.find?_append, he, hev]

/-- C4: first-seen-wins resolution inheritance.  If the running
`known_resolutions` table maps a tag to explicit dimensions `(h, w)` (as it
does after a first-processed stream carrying explicit width/height parsed to
that tag), then a later `extract_addr` call whose URL key parses to the same
tag produces descriptors with exactly that height and width, leaving the
table unchanged; a first call on a fresh tag with explicit call-site
dimensions both stores them and stamps them on its own descriptors; and no
intermediate call (whatever its address or metadata) can alter an existing
tag entry. -/
theorem extractAddr_resolution_inheritance
    (known : KnownRes) (res : String) (h w : Int) (addr : Addr) (am : AddMeta)
    (pk : ParsedKey) (hpk : parseUrlKey addr.urlKey = some pk) (hres : pk.res = res) :
    (krFind known res = some (some h, some w) →
      (∀ f ∈ (extractAddr known addr am).1, f.height = some h ∧ f.width = some w)
      ∧ (extractAddr known addr am).2 = known)
    ∧ (krFind known res = none → am.height = some (some h) → am.width = some (some w) →
      (∀ f ∈ (extractAddr known addr am).1, f.height = some h ∧ f.width = some w)
      ∧ krFind (extractAddr known addr am).2 res = some (some h, some w))
    ∧ (∀ (addr2 : Addr) (am2 : AddMeta) (v : Option Int × Option Int),
        krFind known res = some v → krFind (extractAddr known addr2 am2).2 res = some v) := by
  subst hres
  refine ⟨fun hfind => ?_, fun hfind hh hw => ?_, fun addr2 am2 v hv => ?_⟩
  · have hins : krInsert known pk.res am.height.join am.width.join = known := by
      unfold krInsert
      rw [hfind]
      simp
    constructor
    · intro f hf
      rw [extractAddr, hpk] at hf
      simp only [hins, hfind] at hf
      rcases List.mem_map.mp hf with ⟨u, _, rfl⟩
      exact ⟨rfl, rfl⟩
    · rw [extractAddr, hpk]
      simpa using hins
  · have hstore : krFind (krInsert known pk.res am.height.join am.width.join) pk.res =
        some (some h, some w) := by
      rw [hh, hw]
      simpa using krFind_insert_self known pk.res (some h) (some w) hfind
    constructor
    · intro f hf
      rw [extractAddr, hpk] at hf
      simp only [hstore] at hf
      rcases List.mem_map.mp hf with ⟨u, _, rfl⟩
      exact ⟨rfl, rfl⟩
    · rw [extractAddr, hpk]
      simpa using hstore
  · rw [extractAddr]
    cases hpk2 : parseUrlKey addr2.urlKey with
    | none => exact hv
    | some pk2 => exact krFind_insert_preserve known pk2.res _ _ _ v hv

/-- The descriptor produced in the C4 witness scenario: a ladder-style
stream with URL key `v0w_h264_540p_2000` and no explicit dimensions of its
own, processed while the table already knows `540p` as 540×960. -/
def c4InheritedFormat : Format :=
  { url := "u1", formatId := some "h264_540p_2000", vcodec := some "h264",
    tbr := some 2, quality := some 1, width := some 540, height := some 960 }

/-- C4 witness: the table already maps `540p` to height 960, width 540; a
ladder-style address whose URL key parses to `540p` and carries no explicit
dimensions inherits them on its descriptor, and the table is unchanged. -/
theorem extractAddr_resolution_inheritance_witness :
    c4InheritedFormat.height = some 960
    ∧ c4InheritedFormat.width = some 540
    ∧ (extractAddr [("540p", some 960, some 540)]
        { urlKey := "v0w_h264_540p_2000", urlList := ["u1"] } {}).2 =
      [("540p", some 960, some 540)] := by
  have h := (extractAddr_resolution_inheritance [("540p", some 960, some 540)]
    "540p" 960 540 { urlKey := "v0w_h264_540p_2000", urlList := ["u1"] } {}
    ⟨"h264_540p_2000", "h264", "540p", "2000"⟩ (by decide) rfl).1 (by decide)
  refine ⟨?_, ?_, h.2⟩
  · exact (h.1 c4InheritedFormat (by decide)).1
  · exact (h.1 c4InheritedFormat (by decide)).2

/-! ## Claims about music attribution -/

/-- C5 (amended): for a generic original-sound item (flagged as original
sound with title exactly `'original sound - ' + owner handle`) the output
track is the cross-referenced matched-song title when present, falling back
to the literal label `'original sound'`, and the artist is the
cross-referenced matched-song author when present, falling back to the
literal music author field (empty values collapsing to absent); for every
other item the output track and artist are the literal music title and
author fields. -/
theorem music_attribution (fetch : String → Option CaptionPayload) (d : AwemeDetail) :
    (isGenericOgTrackname d.music = true →
      (parseAwemeVideoApp fetch d).track =
        some (pyOrStr (containedMusicTrack d.music) "original sound")
      ∧ (parseAwemeVideoApp fetch d).artist = emptyToNone (containedMusicAuthor d.music))
    ∧ (isGenericOgTrackname d.music = false →
      (parseAwemeVideoApp fetch d).track = d.music.title
      ∧ (parseAwemeVideoApp fetch d).artist = emptyToNone d.music.author) := by
  constructor
  · intro h
    constructor
    · show musicTrack d.music = _
      simp [musicTrack, h]
    · show emptyToNone (musicAuthorRaw d.music) = _
      simp [musicAuthorRaw, h]
  · intro h
    constructor
    · show musicTrack d.music = _
      simp [musicTrack, h]
    · show emptyToNone (musicAuthorRaw d.music) = _
      simp [musicAuthorRaw, h]

/-- The music payload of the claimed concrete example: a generic
original-sound title cross-referenced to the matched song "Real Song" by
"Bob". -/
def c5ExampleDetail : AwemeDetail :=
  { awemeId := "1"
    music :=
      { title := some "original sound - alice"
        isOriginalSound := some true
        ownerHandle := some "alice"
        matchedSong := some { title := some "Real Song", author := some "Bob" } } }

/-- C5 witness: the concrete example of the claim — `is_original_sound`,
title `"original sound - alice"`, owner handle `"alice"`, matched song
"Real Song" by "Bob" — yields track "Real Song" and artist "Bob". -/
theorem music_attribution_witness :
    (parseAwemeVideoApp (fun _ => none) c5ExampleDetail).track = some "Real Song"
    ∧ (parseAwemeVideoApp (fun _ => none) c5ExampleDetail).artist = some "Bob" := by
  have h := (music_attribution (fun _ => none) c5ExampleDetail).1 (by decide)
  exact ⟨h.1.trans (by decide), h.2.trans (by decide)⟩

/-- A generic original-sound item with no cross-referenced matched song at
all, but with a literal music author "Carol". -/
def c5NoMatchDetail : AwemeDetail :=
  { awemeId := "1"
    music :=
      { title := some "original sound - alice"
        author := some "Carol"
        isOriginalSound := some true
        ownerHandle := some "alice" } }

/-- C5 counterexample: on a generic original-sound item carrying no matched
song (and no matched PGC sound), the code emits the literal author field
"Carol" as the artist, whereas the claim makes the artist the (here
nonexistent) matched-song author. -/
theorem music_attribution_counterexample :
    isGenericOgTrackname c5NoMatchDetail.music = true
    ∧ c5NoMatchDetail.music.matchedSong = none
    ∧ c5NoMatchDetail.music.matchedPgcSound = none
    ∧ (parseAwemeVideoApp (fun _ => none) c5NoMatchDetail).artist = some "Carol" := by
  exact ⟨by decide, rfl, rfl, by decide⟩

/-! ## Claims about thumbnail assembly -/

theorem thumb_slot_id {t : Thumb} {name : String} {o : Option (List String)}
    (ht : t ∈ (o.getD []).map fun u => (⟨name, u⟩ : Thumb)) : t.id = name := by
  rcases List.mem_map.mp ht with ⟨u, _, rfl⟩
  rfl

/-- C8 (amended): the thumbnail list is assembled by iterating the fixed
priority list of cover-image fields (`cover`, `ai_dynamic_cover`,
`animated_cover`, `ai_dynamic_cover_bak`, `origin_cover`, `dynamic_cover`)
in order, and every available field contributes all of its URLs, tagged with
the field name (so every thumbnail id is one of the six field names). -/
theorem thumbnails_fixed_priority_all (fetch : String → Option CaptionPayload)
    (d : AwemeDetail) :
    (parseAwemeVideoApp fetch d).thumbnails =
      (coverFieldList d.video).flatMap (fun p => (p.2.getD []).map fun u => ⟨p.1, u⟩)
    ∧ ∀ t ∈ (parseAwemeVideoApp fetch d).thumbnails,
        t.id ∈ ["cover", "ai_dynamic_cover", "animated_cover", "ai_dynamic_cover_bak",
          "origin_cover", "dynamic_cover"] := by
  have heq : (parseAwemeVideoApp fetch d).thumbnails =
      (coverFieldList d.video).flatMap (fun p => (p.2.getD []).map fun u => ⟨p.1, u⟩) := by
    show buildThumbnails d.video = _
    unfold buildThumbnails
    congr 1
    funext p
    rcases p with ⟨n, o⟩
    cases o <;> rfl
  refine ⟨heq, fun t ht => ?_⟩
  rw [heq] at ht
  rcases List.mem_flatMap.mp ht with ⟨p, hp, htp⟩
  have hid := thumb_slot_id htp
  fin_cases hp <;> simp [hid]

/-- A video payload with only the `cover` field available. -/
def c8WitnessDetail : AwemeDetail :=
  { awemeId := "1", video := { cover := some ["c1"] } }

/-- C8 witness: with only `cover` available the assembled thumbnail list is
its URL list tagged `cover`, and that id is one of the six field names. -/
theorem thumbnails_fixed_priority_all_witness :
    (parseAwemeVideoApp (fun _ => none) c8WitnessDetail).thumbnails =
      (coverFieldList c8WitnessDetail.video).flatMap
        (fun p => (p.2.getD []).map fun u => ⟨p.1, u⟩)
    ∧ (⟨"cover", "c1"⟩ : Thumb).id ∈ ["cover", "ai_dynamic_cover", "animated_cover",
        "ai_dynamic_cover_bak", "origin_cover", "dynamic_cover"] := by
  refine ⟨(thumbnails_fixed_priority_all (fun _ => none) c8WitnessDetail).1, ?_⟩
  exact (thumbnails_fixed_priority_all (fun _ => none) c8WitnessDetail).2
    ⟨"cover", "c1"⟩ (by decide)

/-- A video payload where both `cover` and `origin_cover` are available. -/
def c8BothDetail : AwemeDetail :=
  { awemeId := "1", video := { cover := some ["c1"], originCover := some ["o1"] } }

/-- C8 counterexample: `cover` — the first field of the priority list — is
available, yet the thumbnail list also contains the `origin_cover` URL: the
first available field does not win; every available field contributes. -/
theorem thumbnails_counterexample :
    c8BothDetail.video.cover = some ["c1"]
    ∧ (parseAwemeVideoApp (fun _ => none) c8BothDetail).thumbnails =
        [⟨"cover", "c1"⟩, ⟨"origin_cover", "o1"⟩]
    ∧ (⟨"origin_cover", "o1"⟩ : Thumb) ∈
        (parseAwemeVideoApp (fun _ => none) c8BothDetail).thumbnails := by
  exact ⟨rfl, by decide, by decide⟩

/-! ## Claims about subtitle conversion -/

theorem snd_mem_of_mem_enumFrom :
    ∀ (l : List Utterance) (n : Nat) (p : Nat × Utterance), p ∈ l.enumFrom n → p.2 ∈ l
  | [], _, _, h => absurd h (by simp)
  | u :: l, n, p, h => by
    rw [List.enumFrom_cons] at h
    rcases List.mem_cons.mp h with rfl | h2
    · exact List.mem_cons_self _ _
    · exact List.mem_cons_of_mem _ (snd_mem_of_mem_enumFrom l (n + 1) p h2)

/-- C6 (amended): for a fetched caption payload, each cue is numbered by the
1-based position of its utterance in the original utterance list, with
empty-text utterances skipped without renumbering — so when every utterance
has non-empty text, the cues are numbered sequentially starting at 1 (the
enumerated indices plus one are exactly `1, ..., n`), each with an
`HH:MM:SS,mmm --> HH:MM:SS,mmm` timecode derived from the millisecond times,
grouped under the caption's language code with `'en'` as the default. -/
theorem subtitles_sequential_when_text (fetch : String → Option CaptionPayload)
    (cap : Caption) (u : String) (payload : CaptionPayload)
    (hu : cap.url = some u) (hf : fetch u = some payload)
    (htext : ∀ utt ∈ payload.utterances, utt.text ≠ "") :
    getSubtitles fetch [cap] =
      [(cap.language.getD "en",
        [⟨"srt", String.intercalate "\n\n"
          (payload.utterances.enum.map fun p => srtCue p.1 p.2)⟩])]
    ∧ (payload.utterances.enum.map fun p => p.1 + 1) =
        List.range' 1 payload.utterances.length := by
  constructor
  · have hdata : srtData payload.utterances =
        String.intercalate "\n\n" (payload.utterances.enum.map fun p => srtCue p.1 p.2) := by
      unfold srtData
      congr 2
      apply List.filter_eq_self.mpr
      intro p hp
      have h2 : p.2 ∈ payload.utterances := snd_mem_of_mem_enumFrom _ 0 p hp
      simpa using htext p.2 h2
    simp [getSubtitles, hu, hf, addSub, hdata]
  · have h1 : (payload.utterances.enum.map fun p => p.1 + 1) =
        (payload.utterances.enum.map Prod.fst).map (· + 1) := by
      rw [List.map_map]; rfl
    rw [h1, List.enum_map_fst, List.range'_eq_map_range]
    exact List.map_congr_left fun a _ => Nat.add_comm a 1

/-- C6 witness: the single utterance `{start_time: 0, end_time: 1000, text:
"hi"}` yields one cue numbered 1 with timecode
`00:00:00,000 --> 00:00:01,000`, grouped under the default language `en`. -/
theorem subtitles_sequential_when_text_witness :
    getSubtitles (fun _ => some ⟨[⟨0, 1000, "hi"⟩]⟩) [{ url := some "u" }] =
      [("en", [⟨"srt", "1\n00:00:00,000 --> 00:00:01,000\nhi"⟩])] := by
  have h := (subtitles_sequential_when_text (fun _ => some ⟨[⟨0, 1000, "hi"⟩]⟩)
    { url := some "u" } "u" ⟨[⟨0, 1000, "hi"⟩]⟩ rfl rfl (by decide)).1
  exact h.trans (by decide)

/-- C6 counterexample: a caption payload whose first utterance has empty
text produces a single cue numbered 2 — the numbering is not sequential
starting at 1, because `enumerate` runs before the text filter. -/
theorem subtitles_numbering_counterexample :
    getSubtitles
      (fun u => if u = "capurl" then some ⟨[⟨0, 500, ""⟩, ⟨0, 1000, "hi"⟩]⟩ else none)
      [{ url := some "capurl" }] =
      [("en", [⟨"srt", "2\n00:00:00,000 --> 00:00:01,000\nhi"⟩])]
    ∧ ("2\n00:00:00,000 --> 00:00:01,000\nhi").data.head? = some '2' := by
  exact ⟨by decide, by decide⟩

/-! ## Collection pagination driver (`TikTokBaseListIE._entries`) -/

/-- A decoded page response: the fields `_entries` reads
(`aweme_list` with `[]` default, the truthy `has_more` flag, and the
mandatory `cursor` echo). -/
structure PageResponse where
  awemeList : List AwemeDetail := []
  hasMore : Bool := false
  cursor : Nat := 0
deriving DecidableEq

/-- Outcome of one page call through `_call_api`, indexed by the call
number: success with a decoded response, the retryable empty-body signature
(`JSONDecodeError` at position 0), or any other failure. -/
inductive PageOutcome where
  | success (r : PageResponse)
  | retryable
  | fatal
deriving DecidableEq

/-- Observable behaviour of a `_entries` run: the records yielded in order
and the cursor used by each issued page call (so the trace length is the
number of calls); `aborted` marks a re-raised non-retryable failure, and
`outOfFuel` is the fuel-exhaustion marker of the model (the Python generator
would keep iterating). -/
inductive RunResult where
  | done (items : List MediaRecord) (cursors : List Nat)
  | aborted (items : List MediaRecord) (cursors : List Nat)
  | outOfFuel
deriving DecidableEq

/-- The record `_entries` yields per aweme: the reconciled record with the
`webpage_url` override of the yield expression. -/
def listPageItem (fetch : String → Option CaptionPayload) (v : AwemeDetail) :
    MediaRecord :=
  { parseAwemeVideoApp fetch v with
    webpageUrl := "https://tiktok.com/@_/video/" ++ v.awemeId }

/-- Record the cursor of one more issued call in front of a run result. -/
def consCursor (c : Nat) : RunResult → RunResult
  | .done its cs => .done its (c :: cs)
  | .aborted its cs => .aborted its (c :: cs)
  | .outOfFuel => .outOfFuel

/-- `TikTokBaseListIE._entries` as a fuel-indexed run: each iteration issues
one page call (`env` is the call-number-indexed oracle for `_call_api`);
the retryable empty-body signature retries the same page with the same
cursor (the host `RetryManager` is modelled from the spec as retrying
without a separate counter); any other failure aborts the whole collection;
on success every item of `aweme_list` is reconciled and yielded in order,
then the run stops if `has_more` is falsy, otherwise continues from the
response's `cursor`. -/
def entriesRun (fetch : String → Option CaptionPayload) (env : Nat → PageOutcome) :
    Nat → Nat → Nat → RunResult
  | 0, _, _ => .outOfFuel
  | fuel + 1, calls, cursor =>
    match env (calls + 1) with
    | .retryable => consCursor cursor (entriesRun fetch env fuel (calls + 1) cursor)
    | .fatal => .aborted [] [cursor]
    | .success r =>
      let items := r.awemeList.map (listPageItem fetch)
      if r.hasMore then
        match entriesRun fetch env fuel (calls + 1) r.cursor with
        | .done its cs => .done (items ++ its) (cursor :: cs)
        | .aborted its cs => .aborted (items ++ its) (cursor :: cs)
        | .outOfFuel => .outOfFuel
      else .done items [cursor]

theorem entriesRun_pages (fetch : String → Option CaptionPayload) :
    ∀ (rs : List PageResponse) (env : Nat → PageOutcome) (fuel calls c0 : Nat)
      (hne : rs ≠ []),
    rs.length ≤ fuel →
    (∀ i (hi : i < rs.length), env (calls + i + 1) = .success (rs.get ⟨i, hi⟩)) →
    (∀ r ∈ rs.dropLast, r.hasMore = true) →
    (rs.getLast hne).hasMore = false →
    entriesRun fetch env fuel calls c0 =
      .done (rs.flatMap fun r => r.awemeList.map (listPageItem fetch))
            (c0 :: rs.dropLast.map (·.cursor))
  | [], _, _, _, _, hne, _, _, _, _ => absurd rfl hne
  | [r], env, fuel, calls, c0, _, hfuel, halign, _, hlast => by
    have h0 := halign 0 (by simp)
    rcases fuel with _ | fuel
    · simp at hfuel
    · have hlast2 : r.hasMore = false := hlast
      rw [entriesRun]
      have h0e : env (calls + 1) = .success r := by simpa using h0
      simp [h0e, hlast2]
  | r :: r2 :: rest, env, fuel, calls, c0, _, hfuel, halign, hmore, hlast => by
    rcases fuel with _ | fuel
    · simp at hfuel
    have h0 : env (calls + 1) = .success r := by simpa using halign 0 (by simp)
    have hmr : r.hasMore = true := by
      apply hmore
      rw [List.dropLast_cons₂]
      exact List.mem_cons_self _ _
    have ih := entriesRun_pages fetch (r2 :: rest) env fuel (calls + 1) r.cursor
      (by simp) (by simpa using hfuel)
      (fun i hi => by
        have := halign (i + 1) (by simpa using Nat.succ_lt_succ hi)
        simpa [Nat.add_assoc, Nat.add_comm, Nat.add_left_comm] using this)
      (fun x hx => hmore x (by rw [List.dropLast_cons₂]; exact List.mem_cons_of_mem _ hx))
      (by rw [List.getLast_cons] at hlast; exact hlast)
    rw [entriesRun]
    simp only [h0, hmr, if_true, ih]
    rw [List.dropLast_cons₂]
    simp

/-- C7: when every page call of a collection succeeds and the `N`-th
response is the first to report `has_more` false, `_entries` yields every
reconciled item of pages 1 through `N` in order, issues each call with the
cursor advanced from the previous response (starting from cursor 0), and
terminates after exactly `N` calls — no `(N+1)`-th page call is issued. -/
theorem entries_pagination_terminates (fetch : String → Option CaptionPayload)
    (env : Nat → PageOutcome) (rs : List PageResponse) (fuel : Nat)
    (hne : rs ≠ []) (hfuel : rs.length ≤ fuel)
    (halign : ∀ i (hi : i < rs.length), env (i + 1) = .success (rs.get ⟨i, hi⟩))
    (hmore : ∀ r ∈ rs.dropLast, r.hasMore = true)
    (hlast : (rs.getLast hne).hasMore = false) :
    entriesRun fetch env fuel 0 0 =
      .done (rs.flatMap fun r => r.awemeList.map (listPageItem fetch))
            (0 :: rs.dropLast.map (·.cursor))
    ∧ (0 :: rs.dropLast.map (·.cursor)).length = rs.length := by
  constructor
  · exact entriesRun_pages fetch rs env fuel 0 0 hne hfuel
      (fun i hi => by simpa using halign i hi) hmore hlast
  · have hpos : 0 < rs.length := List.length_pos.mpr hne
    simp [List.length_dropLast]
    omega

/-- The two pages of the C7 witness scenario. -/
def c7Pages : List PageResponse :=
  [{ awemeList := [{ awemeId := "a1" }], hasMore := true, cursor := 17 },
   { awemeList := [{ awemeId := "a2" }], hasMore := false, cursor := 99 }]

/-- The call oracle of the C7 witness scenario: page 1 succeeds with more
pages and cursor 17, page 2 succeeds with `has_more = false`; a third call
would fail fatally, so issuing it would be visible in the result. -/
def c7Env : Nat → PageOutcome :=
  fun n => if n = 1 then .success (c7Pages.get ⟨0, by decide⟩)
    else if n = 2 then .success (c7Pages.get ⟨1, by decide⟩)
    else .fatal

/-- C7 witness: `has_more` false on page 2 yields the items of pages 1 and 2
in order, the two calls use cursors 0 and 17, and no third call happens. -/
theorem entries_pagination_terminates_witness :
    entriesRun (fun _ => none) c7Env 2 0 0 =
      .done [listPageItem (fun _ => none) { awemeId := "a1" },
             listPageItem (fun _ => none) { awemeId := "a2" }] [0, 17]
    ∧ ([0, 17] : List Nat).length = 2 := by
  have hne : c7Pages ≠ [] := by simp [c7Pages]
  have h := entries_pagination_terminates (fun _ => none) c7Env c7Pages 2 hne
    (by decide) (by decide) (by decide) rfl
  refine ⟨h.1.trans ?_, rfl⟩
  simp [c7Pages]

/-! ## Short-link redirect resolver (`TikTokVMIE._real_extract`) -/

/-- Python `\w` over the ASCII URLs in play. -/
def isWordChar (c : Char) : Bool := c.isAlphanum || c == '_'

/-- Modelled from the spec: the host `suitable` check matches
`TikTokVMIE._VALID_URL` — `https?://(?:vm|vt)\.tiktok\.com/(?P<id>\w+)` —
anchored at the start of the URL. -/
def isVMUrl (s : String) : Bool :=
  match s.data with
  | 'h' :: 't' :: 't' :: 'p' :: rest =>
    let afterScheme : Option (List Char) :=
      match rest with
      | 's' :: ':' :: '/' :: '/' :: r => some r
      | ':' :: '/' :: '/' :: r => some r
      | _ => none
    match afterScheme with
    | none => false
    | some r =>
      match r with
      | 'v' :: x :: '.' :: 't' :: 'i' :: 'k' :: 't' :: 'o' :: 'k' :: '.' :: 'c' :: 'o' :: 'm' :: '/' :: c :: _ =>
        (x == 'm' || x == 't') && isWordChar c
      | _ => false
  | _ => false

/-- `TikTokVMIE._real_extract`: resolve the short link with a HEAD request
(the `resolve` oracle); if the resolved URL itself still matches the
short-link pattern (`self.suitable(new_url)` — the guard against a redirect
loop), raise `UnsupportedError` (`Except.error`); otherwise re-dispatch the
resolved URL (`Except.ok`). -/
def vmRealExtract (resolve : String → String) (url : String) : Except String String :=
  let newUrl := resolve url
  if isVMUrl newUrl then .error newUrl else .ok newUrl

/-- C9 (amended): the resolver fails fatally with an unsupported-URL error
exactly when the resolved URL again matches the short-link pattern — in
particular when the short link resolves to itself — and otherwise
re-dispatches the resolved URL as a new extraction target. -/
theorem vm_redirect_loop (resolve : String → String) (url : String) :
    vmRealExtract resolve url =
      (if isVMUrl (resolve url) then .error (resolve url) else .ok (resolve url))
    ∧ (isVMUrl url = true → resolve url = url → vmRealExtract resolve url = .error url) := by
  refine ⟨rfl, fun hvm hres => ?_⟩
  unfold vmRealExtract
  rw [hres, if_pos hvm]

/-- C9 witness: a short link resolving to a canonical video page is
re-dispatched; one resolving to itself raises the unsupported-URL error. -/
theorem vm_redirect_loop_witness :
    vmRealExtract (fun _ => "https://www.tiktok.com/@u/video/1")
      "https://vm.tiktok.com/ZAbc1" = .ok "https://www.tiktok.com/@u/video/1"
    ∧ vmRealExtract (fun u => u) "https://vm.tiktok.com/ZAbc1" =
      .error "https://vm.tiktok.com/ZAbc1" := by
  constructor
  · exact (vm_redirect_loop (fun _ => "https://www.tiktok.com/@u/video/1")
      "https://vm.tiktok.com/ZAbc1").1.trans (by decide)
  · exact (vm_redirect_loop (fun u => u) "https://vm.tiktok.com/ZAbc1").2 (by decide) rfl

/-- C9 counterexample: a short link resolving to a different short link —
not to itself — is still rejected as unsupported instead of being
re-dispatched, so failure is not limited to the resolves-to-itself case. -/
theorem vm_redirect_counterexample :
    vmRealExtract (fun _ => "https://vt.tiktok.com/ZOther9")
      "https://vm.tiktok.com/ZSelf1" = .error "https://vt.tiktok.com/ZOther9"
    ∧ ("https://vt.tiktok.com/ZOther9" : String) ≠ "https://vm.tiktok.com/ZSelf1" := by
  exact ⟨by decide, by decide⟩

end TikTok
